import Mathlib

/-
Verification of the session-scoped conversation store and the streaming
response aggregation of the llm-chat repository.

The store backends live in src/clients/redis.py (RedisChatHistory),
src/clients/redis_history.py (RedisLangChainHistory) and
src/utils/redis_history.py; the streaming controllers live in
src/ui/streamlit_app.py (StreamlitApp) and src/ui/components/chat.py
(ChatComponent); chat-name generation lives in
src/clients/langchain_client.py (LangChainClient.generate_chat_name).

Redis is modelled as a deterministic key-value state: a list keyspace
(RPUSH / LRANGE / LLEN) and a hash keyspace (HSET / HGET / HGETALL /
HINCRBY), both as association lists keyed by strings.  JSON
round-tripping of message records is the identity on the records this
code writes, so the model stores the records directly.
-/

set_option maxHeartbeats 1000000

namespace LlmChat

/-- Lookup of the first binding of a key in an association list. -/
def aget {β : Type} : List (String × β) → String → Option β
  | [], _ => none
  | (k', v) :: l, k => if k' = k then some v else aget l k

/-- Update of the first binding of a key in an association list, appending
a new binding at the end when the key is absent (Redis creates the key). -/
def aset {β : Type} : List (String × β) → String → β → List (String × β)
  | [], k, v => [(k, v)]
  | (k', v') :: l, k, v => if k' = k then (k, v) :: l else (k', v') :: aset l k v

theorem aget_aset_self {β : Type} (l : List (String × β)) (k : String) (v : β) :
    aget (aset l k v) k = some v := by
  induction l with
  | nil => simp [aget, aset]
  | cons p l ih =>
    by_cases h : p.1 = k
    · simp [aget, aset, h]
    · simp [aget, aset, h, ih]

theorem aget_aset_ne {β : Type} (l : List (String × β)) (k k' : String) (v : β)
    (h : k ≠ k') : aget (aset l k v) k' = aget l k' := by
  induction l with
  | nil => simp [aget, aset, h]
  | cons p l ih =>
    by_cases hp : p.1 = k
    · simp [aget, aset, hp, h]
    · simp [aget, aset, hp, ih]

/-- The Redis state visible to this code: the list keyspace (message lists,
with entries of type mu) and the hash keyspace (session metadata). -/
structure RedisState (mu : Type) where
  lists : List (String × List mu)
  hashes : List (String × List (String × String))
deriving DecidableEq, Repr

/-- RPUSH key value: append to the list stored at the key, creating it when
absent. -/
def rpush {mu : Type} (st : RedisState mu) (k : String) (v : mu) : RedisState mu :=
  { st with lists := aset st.lists k (((aget st.lists k).getD []) ++ [v]) }

/-- LRANGE key 0 -1: the whole list, empty when the key is absent. -/
def lrange {mu : Type} (st : RedisState mu) (k : String) : List mu :=
  (aget st.lists k).getD []

/-- LLEN key. -/
def llen {mu : Type} (st : RedisState mu) (k : String) : Nat :=
  (lrange st k).length

/-- HSET key field value. -/
def hset {mu : Type} (st : RedisState mu) (k f v : String) : RedisState mu :=
  { st with hashes := aset st.hashes k (aset ((aget st.hashes k).getD []) f v) }

/-- HGET key field. -/
def hget {mu : Type} (st : RedisState mu) (k f : String) : Option String :=
  aget ((aget st.hashes k).getD []) f

/-- HSET key mapping={...}: set several fields of one hash. -/
def hsetMapping {mu : Type} (st : RedisState mu) (k : String)
    (m : List (String × String)) : RedisState mu :=
  m.foldl (fun st p => hset st k p.1 p.2) st

/-- HINCRBY key field incr: Redis parses the stored value as a decimal
integer (absent counts as 0; every value this code writes to the field is a
decimal integer) and stores the incremented value back. -/
def hincrby {mu : Type} (st : RedisState mu) (k f : String) (incr : Int) :
    RedisState mu :=
  let cur : Int := ((hget st k f).bind String.toInt?).getD 0
  hset st k f (toString (cur + incr))

/-- KEYS "chat:*": every key matching the pattern, across the list and hash
keyspaces, in the model's (fixed) enumeration order; real Redis returns them
in unspecified order. -/
def chatKeys {mu : Type} (st : RedisState mu) : List String :=
  (st.lists.map Prod.fst ++ st.hashes.map Prod.fst).filter
    (fun k => "chat:".data.isPrefixOf k.data)

/-- Occurrence of one character sequence inside another, at the character
level. -/
def containsSeq (pat : List Char) : List Char → Bool
  | [] => pat.isEmpty
  | c :: rest => pat.isPrefixOf (c :: rest) || containsSeq pat rest

/-- Python's substring test `":meta" in key`. -/
def hasMetaMark (k : String) : Bool := containsSeq ":meta".data k.data

/-- Lexicographic comparison of code-point sequences: the comparison Python
applies to the created_at key strings inside sorted. -/
def lexLe : List Char → List Char → Bool
  | [], _ => true
  | _ :: _, [] => false
  | a :: as, b :: bs =>
    if a < b then true else if b < a then false else lexLe as bs

theorem lexLe_total : ∀ a b : List Char, lexLe a b = true ∨ lexLe b a = true
  | [], _ => Or.inl rfl
  | _ :: _, [] => Or.inr rfl
  | a :: as, b :: bs => by
    rcases lt_trichotomy a b with h | h | h
    · left; simp [lexLe, h]
    · subst h
      rcases lexLe_total as bs with ih | ih
      · left; simp [lexLe, lt_self_iff_false, ih]
      · right; simp [lexLe, lt_self_iff_false, ih]
    · right; simp [lexLe, h]

theorem lexLe_trans : ∀ a b c : List Char,
    lexLe a b = true → lexLe b c = true → lexLe a c = true
  | [], _, _, _, _ => rfl
  | _ :: _, [], _, h1, _ => by simp [lexLe] at h1
  | _ :: _, _ :: _, [], _, h2 => by simp [lexLe] at h2
  | a :: as, b :: bs, c :: cs, h1, h2 => by
    rcases lt_trichotomy a b with hab | hab | hab
    · rcases lt_trichotomy b c with hbc | hbc | hbc
      · simp [lexLe, lt_trans hab hbc]
      · subst hbc; simp [lexLe, hab]
      · exfalso; simp [lexLe, asymm hbc, hbc] at h2
    · subst hab
      simp only [lexLe, lt_self_iff_false, if_false] at h1
      rcases lt_trichotomy a c with hac | hac | hac
      · simp [lexLe, hac]
      · subst hac
        simp only [lexLe, lt_self_iff_false, if_false] at h2 ⊢
        exact lexLe_trans as bs cs h1 h2
      · exfalso; simp [lexLe, asymm hac, hac] at h2
    · exfalso; simp [lexLe, asymm hab, hab] at h1

theorem lrange_rpush_self {mu : Type} (st : RedisState mu) (k : String) (v : mu) :
    lrange (rpush st k v) k = lrange st k ++ [v] := by
  simp [lrange, rpush, aget_aset_self]

theorem lrange_hset {mu : Type} (st : RedisState mu) (k f v : String)
    (k' : String) : lrange (hset st k f v) k' = lrange st k' := rfl

theorem lrange_hsetMapping {mu : Type} (st : RedisState mu) (k : String)
    (m : List (String × String)) (k' : String) :
    lrange (hsetMapping st k m) k' = lrange st k' := by
  induction m generalizing st with
  | nil => rfl
  | cons p m ih => simpa [hsetMapping] using ih (hset st k p.1 p.2)

theorem hget_rpush {mu : Type} (st : RedisState mu) (k : String) (v : mu)
    (k' f : String) : hget (rpush st k v) k' f = hget st k' f := rfl

theorem hget_hset_self {mu : Type} (st : RedisState mu) (k f v : String) :
    hget (hset st k f v) k f = some v := by
  simp [hget, hset, aget_aset_self]

/-- Python str.strip(): remove leading and trailing whitespace.  Modelled
at the character-list level so that it evaluates by kernel reduction. -/
def pyStrip (s : String) : String :=
  String.mk (((s.data.dropWhile Char.isWhitespace).reverse.dropWhile
    Char.isWhitespace).reverse)

theorem pyStrip_empty : pyStrip "" = "" := rfl

theorem ne_empty_of_pyStrip_ne_empty {s : String} (h : pyStrip s ≠ "") :
    s ≠ "" := by
  intro he
  exact h (by rw [he]; rfl)

/-- One conversation turn as stored by RedisChatHistory.add_message
(src/clients/redis.py): a JSON object with fields role, content and
timestamp, stored in the session's Redis list. -/
structure StoredMessage where
  role : String
  content : String
  timestamp : String
deriving DecidableEq, Repr

/-- LangChain message objects persisted by the app: HumanMessage or
AIMessage (the system message is never persisted as a turn). -/
inductive LCMessage where
  | human (content : String)
  | ai (content : String)
deriving DecidableEq, Repr

/-- One record stored by RedisLangChainHistory._message_to_dict
(src/clients/redis_history.py): the message class name as a tag, the
content and a write-time timestamp. -/
structure TaggedMessage where
  tag : String
  content : String
  timestamp : String
deriving DecidableEq, Repr

namespace RedisChat

/-- Model of RedisChatHistory.create_session (src/clients/redis.py):
the id is "chat:" followed by now.strftime("%Y%m%d_%H%M%S") - second
granularity - and the :meta hash receives created_at (isoformat) and
message_count = 0.  tick and iso are the two clock readings. -/
def createSession (st : RedisState StoredMessage) (tick iso : String) :
    RedisState StoredMessage × String :=
  let sessionId := "chat:" ++ tick
  (hsetMapping st (sessionId ++ ":meta")
    [("created_at", iso), ("message_count", "0")], sessionId)

/-- Model of RedisChatHistory.add_message: RPUSH the JSON record onto the
session list, then HINCRBY message_count by 1 on the :meta hash.  There is
no validation of session_id or content. -/
def addMessage (st : RedisState StoredMessage)
    (sessionId role content iso : String) : RedisState StoredMessage :=
  let st1 := rpush st sessionId ⟨role, content, iso⟩
  hincrby st1 (sessionId ++ ":meta") "message_count" 1

/-- Model of RedisChatHistory.get_session_messages: LRANGE 0 -1 of the
session list, JSON-decoded. -/
def getSessionMessages (st : RedisState StoredMessage) (sessionId : String) :
    List StoredMessage :=
  lrange st sessionId

/-- Model of RedisChatHistory.get_session_info: created_at from the :meta
hash (default "Unknown"); message_count recomputed as LLEN of the session
list, not read from the stored counter. -/
def getSessionInfo (st : RedisState StoredMessage) (sessionId : String) :
    String × Nat :=
  ((hget st (sessionId ++ ":meta") "created_at").getD "Unknown",
   llen st sessionId)

/-- One entry of the list built by RedisChatHistory.list_sessions. -/
structure SessionSummary where
  id : String
  createdAt : String
  messageCount : Nat
deriving DecidableEq, Repr

/-- The list RedisChatHistory.list_sessions builds before sorting: every
key matching "chat:*" whose name does not contain ":meta", in enumeration
order, with that key's session info. -/
def sessionSummaries (st : RedisState StoredMessage) : List SessionSummary :=
  ((chatKeys st).filter (fun k => !(hasMetaMark k))).map
    (fun k => ⟨k, (getSessionInfo st k).1, (getSessionInfo st k).2⟩)

/-- The comparison used by list_sessions: descending by the created_at
string (Python compares the key strings lexicographically by code point). -/
def byCreatedDesc (a b : SessionSummary) : Prop :=
  lexLe b.createdAt.data a.createdAt.data = true

instance : DecidableRel byCreatedDesc :=
  fun a b =>
    inferInstanceAs (Decidable (lexLe b.createdAt.data a.createdAt.data = true))

/-- Model of RedisChatHistory.list_sessions: Python's
sorted(..., key=created_at, reverse=True) is the stable descending sort by
the created_at string, which is exactly insertion sort with byCreatedDesc
(ties keep their enumeration order in both). -/
def listSessions (st : RedisState StoredMessage) : List SessionSummary :=
  List.insertionSort byCreatedDesc (sessionSummaries st)

/-- Running a sequence of add_message calls against one session. -/
def addAll (st : RedisState StoredMessage) (sessionId : String)
    (ms : List (String × String × String)) : RedisState StoredMessage :=
  ms.foldl (fun st m => addMessage st sessionId m.1 m.2.1 m.2.2) st

theorem lrange_addMessage (st : RedisState StoredMessage)
    (sessionId role content iso : String) :
    lrange (addMessage st sessionId role content iso) sessionId
      = lrange st sessionId ++ [⟨role, content, iso⟩] := by
  simp [addMessage, hincrby, lrange_hset, lrange_rpush_self]

theorem lrange_addAll (st : RedisState StoredMessage) (sessionId : String)
    (ms : List (String × String × String)) :
    lrange (addAll st sessionId ms) sessionId
      = lrange st sessionId
          ++ ms.map (fun m => (⟨m.1, m.2.1, m.2.2⟩ : StoredMessage)) := by
  induction ms generalizing st with
  | nil => simp [addAll]
  | cons m ms ih =>
    simp [addAll] at ih ⊢
    rw [ih, lrange_addMessage, List.append_assoc]
    rfl

end RedisChat

namespace RedisLC

/-- The Python class name of a LangChain message object, used as the stored
type tag by _message_to_dict. -/
def className : LCMessage → String
  | .human _ => "HumanMessage"
  | .ai _ => "AIMessage"

/-- The content of a message; `message.content if message.content else ""`
is the identity on strings (the falsy string is "" itself). -/
def contentOf : LCMessage → String
  | .human c => c
  | .ai c => c

/-- Model of RedisLangChainHistory._message_to_dict
(src/clients/redis_history.py). -/
def messageToDict (m : LCMessage) (iso : String) : TaggedMessage :=
  ⟨className m, contentOf m, iso⟩

/-- Whether add_message returned after storing, or logged and returned
without touching the store.  In neither case does it raise. -/
inductive AddOutcome where
  | added
  | droppedSilently
deriving DecidableEq, Repr

/-- Model of RedisLangChainHistory.add_message: a falsy session_id or
message logs an error and plainly returns; otherwise it RPUSHes the record
and read-modify-writes the message_count field of the :meta hash
(int(current or 0) + 1, stored back as a decimal string; the stored
counters are always decimal, so the parse never raises). -/
def addMessage (st : RedisState TaggedMessage) (sessionId : String)
    (message : Option LCMessage) (iso : String) :
    RedisState TaggedMessage × AddOutcome :=
  match message with
  | none => (st, .droppedSilently)
  | some m =>
    if sessionId = "" then (st, .droppedSilently)
    else
      let st1 := rpush st sessionId (messageToDict m iso)
      let countKey := sessionId ++ ":meta"
      let current := hget st1 countKey "message_count"
      let newCount : Int :=
        (match current with
         | none => 0
         | some s => if s = "" then 0 else s.toInt?.getD 0) + 1
      (hset st1 countKey "message_count" (toString newCount), .added)

/-- Reconstruction of a message from a stored record, as in
get_session_messages: only the HumanMessage and AIMessage tags are
recognised; records with any other tag are silently skipped. -/
def parseRecord (d : TaggedMessage) : Option LCMessage :=
  if d.tag = "HumanMessage" then some (.human d.content)
  else if d.tag = "AIMessage" then some (.ai d.content)
  else none

/-- Model of RedisLangChainHistory.get_session_messages: empty for a falsy
session_id, otherwise LRANGE 0 -1 decoded record by record. -/
def getSessionMessages (st : RedisState TaggedMessage) (sessionId : String) :
    List LCMessage :=
  if sessionId = "" then []
  else (lrange st sessionId).filterMap parseRecord

/-- Running a sequence of add_message calls with (message, timestamp)
pairs against one session. -/
def addAll (st : RedisState TaggedMessage) (sessionId : String)
    (ms : List (LCMessage × String)) : RedisState TaggedMessage :=
  ms.foldl (fun st m => (addMessage st sessionId (some m.1) m.2).1) st

theorem parseRecord_messageToDict (m : LCMessage) (iso : String) :
    parseRecord (messageToDict m iso) = some m := by
  cases m <;> simp [parseRecord, messageToDict, className, contentOf]

theorem lrange_addMessageLC (st : RedisState TaggedMessage)
    (sessionId : String) (m : LCMessage) (iso : String)
    (h : sessionId ≠ "") :
    lrange (addMessage st sessionId (some m) iso).1 sessionId
      = lrange st sessionId ++ [messageToDict m iso] := by
  simp [addMessage, h, lrange_hset, lrange_rpush_self]

theorem lrange_addAllLC (st : RedisState TaggedMessage) (sessionId : String)
    (ms : List (LCMessage × String)) (h : sessionId ≠ "") :
    lrange (addAll st sessionId ms) sessionId
      = lrange st sessionId ++ ms.map (fun m => messageToDict m.1 m.2) := by
  induction ms generalizing st with
  | nil => simp [addAll]
  | cons m ms ih =>
    simp [addAll] at ih ⊢
    rw [ih, lrange_addMessageLC _ _ _ _ h, List.append_assoc]
    rfl

end RedisLC

/-- C1: for a freshly created session, after N completed add_message calls
the message_count reported by get_session_info equals N and equals the
length of get_session_messages, and each add_message call rewrites the
stored message_count field from the decimal of n to the decimal of n + 1. -/
theorem message_count_invariant
    (st0 : RedisState StoredMessage) (tick iso : String)
    (ms : List (String × String × String))
    (hfresh : lrange st0 ("chat:" ++ tick) = []) :
    (RedisChat.getSessionInfo
        (RedisChat.addAll (RedisChat.createSession st0 tick iso).1
          ("chat:" ++ tick) ms) ("chat:" ++ tick)).2 = ms.length
    ∧ (RedisChat.getSessionInfo
        (RedisChat.addAll (RedisChat.createSession st0 tick iso).1
          ("chat:" ++ tick) ms) ("chat:" ++ tick)).2
      = (RedisChat.getSessionMessages
          (RedisChat.addAll (RedisChat.createSession st0 tick iso).1
            ("chat:" ++ tick) ms) ("chat:" ++ tick)).length
    ∧ (∀ (st : RedisState StoredMessage) (s r c t cnt : String) (n : Int),
        hget st (s ++ ":meta") "message_count" = some cnt →
        cnt.toInt? = some n →
        hget (RedisChat.addMessage st s r c t) (s ++ ":meta") "message_count"
          = some (toString (n + 1))) := by
  have hcreate :
      (RedisChat.createSession st0 tick iso).1
        = hsetMapping st0 (("chat:" ++ tick) ++ ":meta")
            [("created_at", iso), ("message_count", "0")] := rfl
  have hlist :
      lrange (RedisChat.addAll (RedisChat.createSession st0 tick iso).1
          ("chat:" ++ tick) ms) ("chat:" ++ tick)
        = ms.map (fun m => (⟨m.1, m.2.1, m.2.2⟩ : StoredMessage)) := by
    rw [RedisChat.lrange_addAll, hcreate, lrange_hsetMapping, hfresh]
    simp
  refine ⟨?_, ?_, ?_⟩
  · simp [RedisChat.getSessionInfo, llen, hlist]
  · simp [RedisChat.getSessionInfo, RedisChat.getSessionMessages, llen, hlist]
  · intro st s r c t cnt n h1 h2
    simp [RedisChat.addMessage, hincrby, hget_rpush, h1, h2, hget_hset_self]

theorem message_count_invariant_witness :
    lrange (⟨[], []⟩ : RedisState StoredMessage) ("chat:" ++ "20240101_120000") = []
    ∧ (RedisChat.getSessionInfo
        (RedisChat.addAll
          (RedisChat.createSession (⟨[], []⟩ : RedisState StoredMessage)
            "20240101_120000" "2024-01-01T12:00:00").1
          ("chat:" ++ "20240101_120000")
          [("user", "Hi", "t1"), ("assistant", "Hello!", "t2")])
        ("chat:" ++ "20240101_120000")).2 = 2 :=
  ⟨rfl,
   (message_count_invariant (⟨[], []⟩ : RedisState StoredMessage)
      "20240101_120000" "2024-01-01T12:00:00"
      [("user", "Hi", "t1"), ("assistant", "Hello!", "t2")] rfl).1⟩

/-- C2: appended messages are returned by retrieval exactly in append order
(FIFO, stable), both for RedisChatHistory (raw dict records) and for
RedisLangChainHistory (LangChain message round-trip). -/
theorem get_messages_append_order
    (st0 : RedisState StoredMessage) (tick iso : String)
    (ms : List (String × String × String))
    (hfresh : lrange st0 ("chat:" ++ tick) = [])
    (st2 : RedisState TaggedMessage) (sid2 : String)
    (ms2 : List (LCMessage × String))
    (hsid2 : sid2 ≠ "") (hfresh2 : lrange st2 sid2 = []) :
    RedisChat.getSessionMessages
        (RedisChat.addAll (RedisChat.createSession st0 tick iso).1
          ("chat:" ++ tick) ms) ("chat:" ++ tick)
      = ms.map (fun m => (⟨m.1, m.2.1, m.2.2⟩ : StoredMessage))
    ∧ RedisLC.getSessionMessages (RedisLC.addAll st2 sid2 ms2) sid2
      = ms2.map Prod.fst := by
  constructor
  · have hcreate :
        (RedisChat.createSession st0 tick iso).1
          = hsetMapping st0 (("chat:" ++ tick) ++ ":meta")
              [("created_at", iso), ("message_count", "0")] := rfl
    rw [RedisChat.getSessionMessages, RedisChat.lrange_addAll, hcreate,
        lrange_hsetMapping, hfresh]
    simp
  · rw [RedisLC.getSessionMessages, if_neg hsid2,
        RedisLC.lrange_addAllLC _ _ _ hsid2, hfresh2]
    simp only [List.nil_append]
    induction ms2 with
    | nil => rfl
    | cons m ms2 ih => simp [RedisLC.parseRecord_messageToDict, ih]

theorem get_messages_append_order_witness :
    lrange (⟨[], []⟩ : RedisState StoredMessage) ("chat:" ++ "20240101_120000") = []
    ∧ ("chat:20240101_120001" : String) ≠ ""
    ∧ lrange (⟨[], []⟩ : RedisState TaggedMessage) "chat:20240101_120001" = []
    ∧ RedisLC.getSessionMessages
        (RedisLC.addAll (⟨[], []⟩ : RedisState TaggedMessage)
          "chat:20240101_120001"
          [(.human "Hi", "t1"), (.ai "Hello!", "t2")])
        "chat:20240101_120001"
      = [LCMessage.human "Hi", LCMessage.ai "Hello!"] :=
  ⟨rfl, by decide, rfl,
   (get_messages_append_order (⟨[], []⟩ : RedisState StoredMessage)
      "20240101_120000" "2024-01-01T12:00:00" [("user", "Hi", "t1")] rfl
      (⟨[], []⟩ : RedisState TaggedMessage) "chat:20240101_120001"
      [(.human "Hi", "t1"), (.ai "Hello!", "t2")] (by decide) rfl).2⟩

/-- C3 counterexample: two create_session calls whose clock readings fall
in the same second (ids have strftime second granularity) return the very
same session id, so an id equal to a previously issued one is returned. -/
theorem create_session_same_tick_collision :
    (RedisChat.createSession
        (RedisChat.createSession (⟨[], []⟩ : RedisState StoredMessage)
          "20240101_120000" "2024-01-01T12:00:00.000001").1
        "20240101_120000" "2024-01-01T12:00:00.500000").2
      = (RedisChat.createSession (⟨[], []⟩ : RedisState StoredMessage)
          "20240101_120000" "2024-01-01T12:00:00.000001").2 := rfl

/-- C3 amended: a session id is "chat:" plus the creation timestamp at
second granularity, so ids created at distinct second-granularity
timestamps are distinct, while creations within the same second (or at the
same second-stamp as a deleted session) reuse the identical id. -/
theorem create_session_distinct_ticks
    (st1 st2 : RedisState StoredMessage) (t1 t2 iso1 iso2 : String)
    (h : t1 ≠ t2) :
    (RedisChat.createSession st1 t1 iso1).2
      ≠ (RedisChat.createSession st2 t2 iso2).2 := by
  intro he
  apply h
  have hd : ("chat:" ++ t1).data = ("chat:" ++ t2).data :=
    congrArg String.data he
  rw [String.data_append, String.data_append] at hd
  exact String.ext (by simpa using hd)

theorem create_session_distinct_ticks_witness :
    ("20240101_120000" : String) ≠ "20240101_120001"
    ∧ (RedisChat.createSession (⟨[], []⟩ : RedisState StoredMessage)
        "20240101_120000" "2024-01-01T12:00:00").2
      ≠ (RedisChat.createSession (⟨[], []⟩ : RedisState StoredMessage)
          "20240101_120001" "2024-01-01T12:00:01").2 :=
  ⟨by decide,
   create_session_distinct_ticks _ _ _ _ _ _ (by decide)⟩

namespace App

/-- Accumulation performed by the handle_token callback of
StreamlitApp._handle_streaming_response (src/ui/streamlit_app.py): each
fragment is appended to the full_response buffer and the placeholder is
repainted with the concatenation of the buffer (plus a trailing cursor
glyph, elided here).  Returns the final buffer and the succession of
repainted concatenations. -/
def streamAccum (frags : List String) : List String × List String :=
  frags.foldl
    (fun acc tok =>
      let buf := acc.1 ++ [tok]
      (buf, acc.2 ++ [String.join buf]))
    ([], [])

/-- Model of StreamlitApp._handle_streaming_response: runs the stream,
then returns "".join(full_response); when the generate call raises, the
except branch shows an error and returns None.  The second component is
the succession of partial texts made observable during the stream. -/
def handleStreamingResponse (frags : List String) (raised : Bool) :
    Option String × List String :=
  let acc := streamAccum frags
  (if raised then none else some (String.join acc.1), acc.2)

/-- Model of StreamlitApp._handle_message with use_streaming: a blank
prompt returns at once; the user and assistant messages are appended to
the store (chat_history.add_message, user first) only inside the
`if response and response.strip():` branch, i.e. only when generation
returned a truthy, non-blank response.  The stored parameter is the
session's message sequence in the store. -/
def handleMessage (stored : List LCMessage) (prompt : String)
    (frags : List String) (raised : Bool) : List LCMessage :=
  if pyStrip prompt = "" then stored
  else
    match (handleStreamingResponse frags raised).1 with
    | none => stored
    | some response =>
      if response ≠ "" ∧ pyStrip response ≠ "" then
        stored ++ [.human prompt, .ai response]
      else stored

theorem streamAccum_spec (frags : List String) :
    streamAccum frags
      = (frags,
         (List.range frags.length).map
           (fun k => String.join (frags.take (k + 1)))) := by
  induction frags using List.reverseRecOn with
  | nil => rfl
  | append_singleton frags tok ih =>
    rw [streamAccum, List.foldl_append] at *
    rw [ih]
    simp only [List.foldl_cons, List.foldl_nil]
    refine Prod.ext rfl ?_
    show _ ++ [String.join (frags ++ [tok])]
        = (List.range (frags ++ [tok]).length).map
            (fun k => String.join ((frags ++ [tok]).take (k + 1)))
    rw [List.length_append, List.length_singleton, List.range_succ,
        List.map_append]
    refine congrArg₂ _ ?_ ?_
    · refine List.map_congr_left ?_
      intro k hk
      rw [List.mem_range] at hk
      rw [List.take_append_of_le_length (by omega)]
    · simp only [List.map_cons, List.map_nil]
      rw [show frags.length + 1 = (frags ++ [tok]).length by simp,
          List.take_length]

end App

namespace Chat

/-- Model of ChatComponent._handle_user_input with use_streaming
(src/ui/components/chat.py): the user message is persisted through
chat_history.add_message before the generation call.  In
_handle_streaming_response, generate_response_stream returns a
(content, full_prompt) pair, so the `if response:` truthiness test always
succeeds on a normal return and "".join(full_response) is persisted as the
assistant message - even when no fragment arrived.  The component has no
try/except, so an exception from the client escapes after the user message
was stored.  Returns the stored sequence and whether an exception
escaped. -/
def handleUserInput (stored : List LCMessage) (prompt : String)
    (frags : List String) (raised : Bool) : List LCMessage × Bool :=
  let stored1 := stored ++ [.human prompt]
  if raised then (stored1, true)
  else (stored1 ++ [.ai (String.join frags)], false)

end Chat

/-- C4 counterexample: in StreamlitApp._handle_message, a non-blank prompt
whose generation fails leaves the store unchanged - the user message is
not recorded before (or independently of) the generation outcome. -/
theorem user_message_lost_on_failure :
    pyStrip "Hi" ≠ ""
    ∧ App.handleMessage [] "Hi" ["par", "tial"] true = [] := by
  constructor
  · decide
  · decide

/-- C4 amended: the ChatComponent controller records the user message
through the store before the generation outcome, so after a failed
generation the store holds the user message and no assistant message; the
StreamlitApp controller persists both messages only after a successful
non-blank response, so a failed generation leaves the store unchanged,
user message included. -/
theorem user_message_persistence_split
    (stored : List LCMessage) (prompt : String) (frags : List String)
    (raised : Bool) :
    (Chat.handleUserInput stored prompt frags raised).1
      = stored ++ [LCMessage.human prompt]
          ++ (if raised then [] else [LCMessage.ai (String.join frags)])
    ∧ App.handleMessage stored prompt frags true = stored := by
  constructor
  · cases raised <;> simp [Chat.handleUserInput]
  · by_cases hp : pyStrip prompt = "" <;>
      simp [App.handleMessage, App.handleStreamingResponse, hp]

/-- C5 counterexample: in ChatComponent, a stream that emits zero
fragments and returns normally appends an assistant message whose content
is the empty string to the store (generate_response_stream returns a
pair, which is always truthy). -/
theorem empty_stream_appends_empty_message :
    Chat.handleUserInput [] "Hi" [] false
      = ([LCMessage.human "Hi", LCMessage.ai ""], false) := by decide

/-- C5 amended: a zero-fragment stream is not signalled as a failure
distinct from an empty valid reply: StreamlitApp receives the empty string
as a normal result, its truthiness check fails, and it silently persists
nothing; ChatComponent appends an assistant message with empty content. -/
theorem empty_stream_behavior (stored : List LCMessage) (prompt : String) :
    (App.handleStreamingResponse [] false).1 = some ""
    ∧ App.handleMessage stored prompt [] false = stored
    ∧ Chat.handleUserInput stored prompt [] false
      = (stored ++ [LCMessage.human prompt, LCMessage.ai ""], false) := by
  refine ⟨rfl, ?_, ?_⟩
  · have hj : String.join [] = "" := rfl
    by_cases hp : pyStrip prompt = "" <;>
      simp [App.handleMessage, App.handleStreamingResponse, App.streamAccum,
            hp, hj]
  · simp [Chat.handleUserInput]
    rfl

/-- C6: for every finite fragment sequence, StreamlitApp persists a single
assistant message whose content is the concatenation of the fragments in
emission order, and after the k-th fragment the observable partial text is
the concatenation of the first k fragments. -/
theorem streaming_concatenation
    (stored : List LCMessage) (prompt : String) (frags : List String)
    (hp : pyStrip prompt ≠ "") (hr : pyStrip (String.join frags) ≠ "") :
    App.handleMessage stored prompt frags false
      = stored ++ [LCMessage.human prompt, LCMessage.ai (String.join frags)]
    ∧ (App.handleStreamingResponse frags false).1 = some (String.join frags)
    ∧ (App.handleStreamingResponse frags false).2
      = (List.range frags.length).map
          (fun k => String.join (frags.take (k + 1))) := by
  have hne : String.join frags ≠ "" := ne_empty_of_pyStrip_ne_empty hr
  refine ⟨?_, ?_, ?_⟩
  · simp [App.handleMessage, App.handleStreamingResponse,
          App.streamAccum_spec, hp, hne, hr]
  · simp [App.handleStreamingResponse, App.streamAccum_spec]
  · simp [App.handleStreamingResponse, App.streamAccum_spec]

theorem streaming_concatenation_witness :
    pyStrip "Hi" ≠ ""
    ∧ pyStrip (String.join ["Hel", "lo"]) ≠ ""
    ∧ App.handleMessage [] "Hi" ["Hel", "lo"] false
      = [] ++ [LCMessage.human "Hi", LCMessage.ai (String.join ["Hel", "lo"])] :=
  ⟨by decide, by decide,
   (streaming_concatenation [] "Hi" ["Hel", "lo"] (by decide) (by decide)).1⟩

namespace Connect

/-- How a run of _connect_with_retry ends, together with the number of
connection attempts actually made. -/
inductive Outcome where
  /-- An attempt succeeded and the client is returned. -/
  | connected (attempts : Nat)
  /-- ClientConnectionError raised after the last allowed attempt. -/
  | storeUnavailable (attempts : Nat)
  /-- NameError from evaluating time.sleep on the retry path:
  src/clients/redis.py never imports time. -/
  | nameFault (attempts : Nat)
  /-- max_retries = 0: the loop body never runs and the function returns
  None. -/
  | fellThrough
deriving DecidableEq, Repr

/-- Model of _connect_with_retry, shared by src/clients/redis.py and
src/clients/redis_history.py, which differ only in whether the name time
resolves (redis_history.py does `import time` before sleeping; redis.py has
no import of time anywhere, so time.sleep raises NameError).  fails i says
whether the i-th connection attempt raises ConnectionError/TimeoutError;
made counts attempts already made, and the structural fuel argument is
max_retries - made, so `made < max_retries - 1` is `0 < remaining`. -/
def connectLoop (timeImported : Bool) (fails : Nat → Bool) (made : Nat) :
    Nat → Outcome
  | 0 => .fellThrough
  | remaining + 1 =>
    if fails made then
      if 0 < remaining then
        if timeImported then connectLoop timeImported fails (made + 1) remaining
        else .nameFault (made + 1)
      else .storeUnavailable (made + 1)
    else .connected (made + 1)

/-- The retry loop started at attempt 0 with the configured max_retries. -/
def connectWithRetry (timeImported : Bool) (maxRetries : Nat)
    (fails : Nat → Bool) : Outcome :=
  connectLoop timeImported fails 0 maxRetries

end Connect

/-- C7: with the default max_retries = 3 and an unreachable store, the
src/clients/redis.py loop (time never imported) makes one attempt and
aborts with NameError instead of retrying, while the same loop with time
imported (src/clients/redis_history.py) makes all 3 attempts and raises
ClientConnectionError; a first-attempt success connects after one
attempt in both. -/
theorem connect_retry_name_fault :
    Connect.connectWithRetry false 3 (fun _ => true)
      = Connect.Outcome.nameFault 1
    ∧ Connect.connectWithRetry true 3 (fun _ => true)
      = Connect.Outcome.storeUnavailable 3
    ∧ Connect.connectWithRetry false 3 (fun _ => false)
      = Connect.Outcome.connected 1 := by
  refine ⟨rfl, rfl, rfl⟩

/-- C8 counterexample: RedisLangChainHistory.add_message with a falsy
session_id returns silently without raising anything and without touching
the store, and RedisChatHistory.add_message appends a message with empty
content (and bumps the counter) instead of rejecting it. -/
theorem add_message_no_error_raised :
    RedisLC.addMessage (⟨[], []⟩ : RedisState TaggedMessage) ""
        (some (.human "Hi")) "2024-01-01T12:00:00"
      = ((⟨[], []⟩ : RedisState TaggedMessage), .droppedSilently)
    ∧ RedisChat.getSessionMessages
        (RedisChat.addMessage (⟨[], []⟩ : RedisState StoredMessage)
          "chat:20240101_120000" "user" "" "t")
        "chat:20240101_120000"
      = [⟨"user", "", "t"⟩] := by
  refine ⟨rfl, by decide⟩

/-- C8 amended: add_message never raises InvalidSession.
RedisLangChainHistory.add_message with a falsy session_id or message logs
and returns silently, leaving the store unchanged, while
RedisChatHistory.add_message performs no validation at all: a message with
empty content is appended and the stored count incremented. -/
theorem add_message_validation_behavior
    (st : RedisState TaggedMessage) (m : Option LCMessage)
    (iso : String) (st2 : RedisState StoredMessage)
    (sid2 role iso2 : String) :
    RedisLC.addMessage st "" m iso = (st, .droppedSilently)
    ∧ RedisLC.addMessage st sid2 none iso = (st, .droppedSilently)
    ∧ RedisChat.getSessionMessages
        (RedisChat.addMessage st2 sid2 role "" iso2) sid2
      = RedisChat.getSessionMessages st2 sid2 ++ [⟨role, "", iso2⟩] := by
  refine ⟨?_, rfl, ?_⟩
  · cases m <;> simp [RedisLC.addMessage]
  · exact RedisChat.lrange_addMessage st2 sid2 role "" iso2

/-- C9 counterexample: creating sessions S1, S2, S3 at strictly increasing
timestamps and calling list_sessions yields the empty listing, not
[S3, S2, S1]: a freshly created session only has its :meta hash key, which
the ":meta" filter removes, and its message-list key does not exist yet -
even though the sessions' metadata is stored and readable. -/
theorem fresh_sessions_not_listed :
    RedisChat.listSessions
        (RedisChat.createSession
          (RedisChat.createSession
            (RedisChat.createSession (⟨[], []⟩ : RedisState StoredMessage)
              "20240101_120000" "2024-01-01T12:00:00").1
            "20240101_120001" "2024-01-01T12:00:01").1
          "20240101_120002" "2024-01-01T12:00:02").1
      = []
    ∧ (RedisChat.getSessionInfo
        (RedisChat.createSession
          (RedisChat.createSession
            (RedisChat.createSession (⟨[], []⟩ : RedisState StoredMessage)
              "20240101_120000" "2024-01-01T12:00:00").1
            "20240101_120001" "2024-01-01T12:00:01").1
          "20240101_120002" "2024-01-01T12:00:02").1
        "chat:20240101_120000").1
      = "2024-01-01T12:00:00" := by
  refine ⟨by decide, by decide⟩

/-- C9 amended: list_sessions returns, for every stored session that has
at least one stored message (a freshly created session with an empty
message list is omitted), a summary, sorted by created_at descending -
a permutation of the enumerated summaries that is pairwise descending; in
particular sessions S1, S2, S3 created at strictly increasing timestamps
with one message each are listed [S3, S2, S1]. -/
theorem list_sessions_sorted_desc (st : RedisState StoredMessage) :
    List.Perm (RedisChat.listSessions st) (RedisChat.sessionSummaries st)
    ∧ List.Sorted RedisChat.byCreatedDesc (RedisChat.listSessions st)
    ∧ RedisChat.listSessions
        (RedisChat.addMessage
          (RedisChat.createSession
            (RedisChat.addMessage
              (RedisChat.createSession
                (RedisChat.addMessage
                  (RedisChat.createSession
                    (⟨[], []⟩ : RedisState StoredMessage)
                    "20240101_120000" "2024-01-01T12:00:00").1
                  "chat:20240101_120000" "user" "Hi" "2024-01-01T12:00:00")
                "20240101_120001" "2024-01-01T12:00:01").1
              "chat:20240101_120001" "user" "Hi" "2024-01-01T12:00:01")
            "20240101_120002" "2024-01-01T12:00:02").1
          "chat:20240101_120002" "user" "Hi" "2024-01-01T12:00:02")
      = [⟨"chat:20240101_120002", "2024-01-01T12:00:02", 1⟩,
         ⟨"chat:20240101_120001", "2024-01-01T12:00:01", 1⟩,
         ⟨"chat:20240101_120000", "2024-01-01T12:00:00", 1⟩] := by
  refine ⟨List.perm_insertionSort RedisChat.byCreatedDesc _, ?_, ?_⟩
  · haveI : IsTotal RedisChat.SessionSummary RedisChat.byCreatedDesc :=
      ⟨fun a b => lexLe_total b.createdAt.data a.createdAt.data⟩
    haveI : IsTrans RedisChat.SessionSummary RedisChat.byCreatedDesc :=
      ⟨fun _ _ _ h1 h2 => lexLe_trans _ _ _ h2 h1⟩
    exact List.sorted_insertionSort RedisChat.byCreatedDesc _
  · decide

theorem length_pos_of_ne_empty {s : String} (h : s ≠ "") : 0 < s.length := by
  obtain ⟨data⟩ := s
  cases data with
  | nil => exact absurd rfl h
  | cons c cs => exact Nat.succ_pos cs.length

theorem string_ne_empty_of_length_pos {s : String} (h : 0 < s.length) :
    s ≠ "" := by
  intro he
  rw [he] at h
  exact Nat.lt_irrefl 0 h

namespace NameGen

/-- Outcome of the generate_response call made inside generate_chat_name:
it either raised, or returned a (content, full_prompt) pair whose content
may be None. -/
inductive ModelCall where
  | raised
  | returned (content : Option String)
deriving DecidableEq, Repr

/-- Python `s.replace("\n", " ")`: for a single-character pattern and
replacement this is a map over the code points. -/
def replaceNewlines (s : String) : String :=
  String.mk (s.data.map (fun c => if c = '\n' then ' ' else c))

/-- Python slicing s[:n], which counts code points. -/
def takeChars (n : Nat) (s : String) : String := String.mk (s.data.take n)

/-- Model of LangChainClient.generate_chat_name
(src/clients/langchain_client.py): the naming call's result is cleaned
(strip, newlines to spaces), truncated to 47 characters plus "..." when
longer than 50, and on an exception or a falsy/blank result the
timestamp-derived default name is returned; now is
datetime.now().strftime("%Y%m%d_%H%M"). -/
def generateChatName (call : ModelCall) (now : String) : String :=
  match call with
  | .raised => "Infrastructure Analysis " ++ now
  | .returned content =>
    match content with
    | none => "Infrastructure Analysis " ++ now
    | some raw =>
      if raw ≠ "" ∧ pyStrip raw ≠ "" then
        let cleaned := replaceNewlines (pyStrip raw)
        if cleaned.length > 50 then takeChars 47 cleaned ++ "..." else cleaned
      else "Infrastructure Analysis " ++ now

theorem length_replaceNewlines (s : String) :
    (replaceNewlines s).length = s.length :=
  List.length_map s.data _

theorem length_takeChars (n : Nat) (s : String) :
    (takeChars n s).length = min n s.length :=
  List.length_take n s.data

end NameGen

/-- C10: generate_chat_name always returns a non-empty name of at most 50
characters; a cleaned model output longer than 50 characters is truncated
to its first 47 characters plus "..."; and when the naming call raises or
its result is falsy or blank, the timestamp-derived default name is
returned instead. -/
theorem generate_chat_name_bounds (call : NameGen.ModelCall) (now : String)
    (hnow : now.length = 13) :
    NameGen.generateChatName call now ≠ ""
    ∧ (NameGen.generateChatName call now).length ≤ 50
    ∧ (call = .raised →
        NameGen.generateChatName call now = "Infrastructure Analysis " ++ now)
    ∧ (call = .returned none →
        NameGen.generateChatName call now = "Infrastructure Analysis " ++ now)
    ∧ (∀ raw, call = .returned (some raw) → pyStrip raw = "" →
        NameGen.generateChatName call now = "Infrastructure Analysis " ++ now)
    ∧ (∀ raw, call = .returned (some raw) → pyStrip raw ≠ "" →
        50 < (NameGen.replaceNewlines (pyStrip raw)).length →
        NameGen.generateChatName call now
          = NameGen.takeChars 47 (NameGen.replaceNewlines (pyStrip raw))
              ++ "...") := by
  have hdeflen : ("Infrastructure Analysis " ++ now).length = 37 := by
    rw [String.length_append, hnow]
    decide
  have hdefne : ("Infrastructure Analysis " ++ now) ≠ "" :=
    string_ne_empty_of_length_pos (by omega)
  rcases call with _ | content
  · refine ⟨hdefne,
      by show ("Infrastructure Analysis " ++ now).length ≤ 50; omega,
      fun _ => rfl, ?_, ?_, ?_⟩
    · intro h; cases h
    · intro raw h; cases h
    · intro raw h; cases h
  · rcases content with _ | raw
    · refine ⟨hdefne,
        by show ("Infrastructure Analysis " ++ now).length ≤ 50; omega,
        ?_, fun _ => rfl, ?_, ?_⟩
      · intro h; cases h
      · intro raw h; cases h
      · intro raw h; cases h
    · by_cases hstrip : pyStrip raw = ""
      · have hname : NameGen.generateChatName (.returned (some raw)) now
            = "Infrastructure Analysis " ++ now := by
          simp [NameGen.generateChatName, hstrip]
        refine ⟨hname ▸ hdefne, by rw [hname]; omega, ?_, ?_, ?_, ?_⟩
        · intro h; cases h
        · intro h; cases h
        · intro raw2 h _
          cases h
          exact hname
        · intro raw2 h h2
          cases h
          exact absurd hstrip h2
      · have hraw : raw ≠ "" := ne_empty_of_pyStrip_ne_empty hstrip
        have hclean : 0 < (NameGen.replaceNewlines (pyStrip raw)).length := by
          rw [NameGen.length_replaceNewlines]
          exact length_pos_of_ne_empty hstrip
        by_cases hlong : 50 < (NameGen.replaceNewlines (pyStrip raw)).length
        · have hname : NameGen.generateChatName (.returned (some raw)) now
              = NameGen.takeChars 47 (NameGen.replaceNewlines (pyStrip raw))
                  ++ "..." := by
            simp [NameGen.generateChatName, hraw, hstrip, hlong]
          have hlen : (NameGen.takeChars 47
              (NameGen.replaceNewlines (pyStrip raw)) ++ "...").length = 50 := by
            rw [String.length_append, NameGen.length_takeChars,
                min_eq_left (by omega)]
            decide
          refine ⟨?_, by rw [hname, hlen], ?_, ?_, ?_, ?_⟩
          · rw [hname]
            exact string_ne_empty_of_length_pos (by omega)
          · intro h; cases h
          · intro h; cases h
          · intro raw2 h h2
            cases h
            exact absurd h2 hstrip
          · intro raw2 h _ _
            cases h
            exact hname
        · have hname : NameGen.generateChatName (.returned (some raw)) now
              = NameGen.replaceNewlines (pyStrip raw) := by
            simp [NameGen.generateChatName, hraw, hstrip, hlong]
          refine ⟨?_, ?_, ?_, ?_, ?_, ?_⟩
          · rw [hname]
            exact string_ne_empty_of_length_pos hclean
          · rw [hname]
            omega
          · intro h; cases h
          · intro h; cases h
          · intro raw2 h h2
            cases h
            exact absurd h2 hstrip
          · intro raw2 h _ h3
            cases h
            exact absurd h3 hlong

theorem generate_chat_name_bounds_witness :
    ("20240101_1200" : String).length = 13
    ∧ (NameGen.generateChatName
        (.returned (some
          "A very long and quite excessively descriptive conversation title"))
        "20240101_1200").length ≤ 50 :=
  ⟨by decide,
   (generate_chat_name_bounds
      (.returned (some
        "A very long and quite excessively descriptive conversation title"))
      "20240101_1200" (by decide)).2.1⟩

end LlmChat
